import Mathlib

/-!
Verification development for the osu-stats downloader (`download_info.py`).

The two pipelines of the source are embedded shallowly:

* `Osu.download_map_info` — the sequential cursor-pagination loop of
  `download_map_info` (lines 81–135 of the source).  Timestamp strings in the
  MySQL format are modelled as integers counting seconds: the source parses
  `approved_date` with `strptime`, optionally subtracts one second via
  `timedelta(seconds=1)`, and re-formats with `strftime`, which on the
  integer-seconds abstraction is subtraction by 1.  The HTTP service is a
  deterministic function from cursor to response.  The loop is given explicit
  fuel since the source loop's termination depends on the external service.

* `Osu.download_rankings_loop` / `Osu.download_rankings_run` — the chunked
  batch fetcher of `download_rankings` (lines 186–239).  The detail fetch for
  one identifier is a function `Nat → Option α` (`none` models a transport or
  decode failure of that identifier's request).
-/

set_option maxRecDepth 40000

namespace Osu

/-- A record returned by the timeline API.  The source only ever reads the
`approved_date` key (line 120) for cursor advancement; the rest of the
schemaless payload is abstracted into one opaque field. -/
structure RawRecord where
  approved_date : Int
  payload : Nat
  deriving DecidableEq, Repr, Inhabited

/-- Response of one `get_beatmaps` request (line 85): either a JSON list of
records, or an error payload, which the source treats as fatal
(lines 86–89: the assertion / the explicit `raise`). -/
inductive ApiResp where
  | ok (recs : List RawRecord)
  | err
  deriving DecidableEq, Repr

/-- `API_MAX_RESULTS = 500` (line 61). -/
def API_MAX_RESULTS : Nat := 500

/-- The pagination progress dict: `since` cursor and the append-only
`json_list` of pages (lines 76–77, 93, 109). -/
structure Progress where
  since : Int
  json_list : List (List RawRecord)
  deriving DecidableEq, Repr

/-- Cursor advancement, lines 120–126: take the last record's
`approved_date`; when the page is full (length = `API_MAX_RESULTS`)
subtract one second, otherwise keep it unchanged. -/
def nextCursor (page : List RawRecord) : Int :=
  let T := (page.getLastD default).approved_date
  if page.length = API_MAX_RESULTS then T - 1 else T

/-- How a pagination run ends: normal exhaustion with the final output
document (lines 91, 132–135), a fatal abort on an error payload
(lines 87–89), or fuel exhaustion (the source loop simply keeps going). -/
inductive MapOutcome where
  | finalWrite (doc : List (List RawRecord))
  | fatal
  | fuelOut
  deriving DecidableEq, Repr

/-- Observable trace of a pagination run: the outcome, the successive
progress-file writes (lines 108–113), and the cursors of the requests
issued (line 83), in order. -/
structure MapTrace where
  outcome : MapOutcome
  ckpts : List Progress
  reqs : List Int
  deriving DecidableEq, Repr

/-- The `while True` loop of `download_map_info` (lines 81–126) plus the
final write (lines 132–135).  Each iteration: request the current cursor;
an error payload aborts; an empty list ends the loop and writes the final
document; otherwise the page is appended to `json_list`, the progress file
is written with the *request* cursor (line 109 runs before the cursor
update of lines 120–126), and the loop continues from `nextCursor`. -/
def download_map_info (api : Int → ApiResp) : Nat → Progress → MapTrace
  | 0, _ => ⟨.fuelOut, [], []⟩
  | fuel+1, s =>
    match api s.since with
    | .err => ⟨.fatal, [], [s.since]⟩
    | .ok [] => ⟨.finalWrite s.json_list, [], [s.since]⟩
    | .ok (r :: rs) =>
      let t := download_map_info api fuel
        ⟨nextCursor (r :: rs), s.json_list ++ [r :: rs]⟩
      ⟨t.outcome, ⟨s.since, s.json_list ++ [r :: rs]⟩ :: t.ckpts, s.since :: t.reqs⟩

/-- The pages a run starting at cursor `c` produces until exhaustion
(`none` when the fuel runs out or an error payload is hit). -/
def mapPages (api : Int → ApiResp) : Nat → Int → Option (List (List RawRecord))
  | 0, _ => none
  | fuel+1, c =>
    match api c with
    | .err => none
    | .ok [] => some []
    | .ok (r :: rs) => (mapPages api fuel (nextCursor (r :: rs))).map (List.cons (r :: rs))

/-- State, progress-file writes and requests after exactly `k` successfully
appended pages (`none` if one of the first `k` requests does not return a
non-empty record list). -/
def mapRunSteps (api : Int → ApiResp) : Nat → Progress → Option (Progress × List Progress × List Int)
  | 0, s => some (s, [], [])
  | k+1, s =>
    match api s.since with
    | .ok (r :: rs) =>
      (mapRunSteps api k ⟨nextCursor (r :: rs), s.json_list ++ [r :: rs]⟩).map
        fun t => (t.1, ⟨s.since, s.json_list ++ [r :: rs]⟩ :: t.2.1, s.since :: t.2.2)
    | _ => none

theorem download_map_info_succ_cons (api : Int → ApiResp) (fuel : Nat) (s : Progress)
    (r : RawRecord) (rs : List RawRecord) (h : api s.since = .ok (r :: rs)) :
    download_map_info api (fuel+1) s =
      ⟨(download_map_info api fuel ⟨nextCursor (r :: rs), s.json_list ++ [r :: rs]⟩).outcome,
       ⟨s.since, s.json_list ++ [r :: rs]⟩ ::
         (download_map_info api fuel ⟨nextCursor (r :: rs), s.json_list ++ [r :: rs]⟩).ckpts,
       s.since ::
         (download_map_info api fuel ⟨nextCursor (r :: rs), s.json_list ++ [r :: rs]⟩).reqs⟩ := by
  conv_lhs => rw [download_map_info]
  rw [h]

theorem download_map_info_reqs_head (api : Int → ApiResp) (fuel : Nat) (s : Progress) :
    (download_map_info api (fuel+1) s).reqs.head? = some s.since := by
  cases h : api s.since with
  | err => simp [download_map_info, h]
  | ok recs =>
    cases recs with
    | nil => simp [download_map_info, h]
    | cons r rs => simp [download_map_info, h]

theorem mapRunSteps_run (api : Int → ApiResp) (m : Nat) :
    ∀ (k : Nat) (s t : Progress) (cks : List Progress) (rqs : List Int),
      mapRunSteps api k s = some (t, cks, rqs) →
      download_map_info api (k + (m+1)) s =
        ⟨(download_map_info api (m+1) t).outcome,
         cks ++ (download_map_info api (m+1) t).ckpts,
         rqs ++ (download_map_info api (m+1) t).reqs⟩ := by
  intro k
  induction k with
  | zero =>
    intro s t cks rqs h
    simp only [mapRunSteps, Option.some.injEq, Prod.mk.injEq] at h
    obtain ⟨h1, h2, h3⟩ := h
    subst h1; subst h2; subst h3
    simp only [Nat.zero_add]
    simp
  | succ k ih =>
    intro s t cks rqs h
    cases hresp : api s.since with
    | err => simp [mapRunSteps, hresp] at h
    | ok recs =>
      cases recs with
      | nil => simp [mapRunSteps, hresp] at h
      | cons r rs =>
        simp only [mapRunSteps, hresp, Option.map_eq_some'] at h
        obtain ⟨u, hu, heq⟩ := h
        have hk : k + 1 + (m + 1) = (k + (m + 1)) + 1 := by omega
        rw [hk]
        have := ih _ u.1 u.2.1 u.2.2 (by simpa using hu)
        rw [download_map_info_succ_cons api _ s r rs hresp, this]
        simp only [Prod.mk.injEq] at heq
        obtain ⟨ht, hcks, hrqs⟩ := heq
        subst ht; subst hcks; subst hrqs
        simp

theorem mapPages_to_run (api : Int → ApiResp) :
    ∀ (fuel : Nat) (c : Int) (D : List (List RawRecord)) (L : List (List RawRecord)),
      mapPages api fuel c = some D →
      (download_map_info api fuel ⟨c, L⟩).outcome = .finalWrite (L ++ D) := by
  intro fuel
  induction fuel with
  | zero => intro c D L h; simp [mapPages] at h
  | succ fuel ih =>
    intro c D L h
    cases hresp : api c with
    | err => simp [mapPages, hresp] at h
    | ok recs =>
      cases recs with
      | nil =>
        simp only [mapPages, hresp, Option.some.injEq] at h
        subst h
        simp [download_map_info, hresp]
      | cons r rs =>
        simp only [mapPages, hresp, Option.map_eq_some'] at h
        obtain ⟨D', hD', hcons⟩ := h
        subst hcons
        have := ih (nextCursor (r :: rs)) D' (L ++ [r :: rs]) hD'
        simp only [download_map_info, hresp, this]
        simp

theorem run_to_mapPages (api : Int → ApiResp) :
    ∀ (fuel : Nat) (s : Progress) (R : List (List RawRecord)),
      (download_map_info api fuel s).outcome = .finalWrite R →
      ∃ D, mapPages api fuel s.since = some D ∧ R = s.json_list ++ D := by
  intro fuel
  induction fuel with
  | zero => intro s R h; simp [download_map_info] at h
  | succ fuel ih =>
    intro s R h
    cases hresp : api s.since with
    | err => simp [download_map_info, hresp] at h
    | ok recs =>
      cases recs with
      | nil =>
        simp only [download_map_info, hresp] at h
        refine ⟨[], by simp [mapPages, hresp], ?_⟩
        cases h with
        | refl => simp
      | cons r rs =>
        simp only [download_map_info, hresp] at h
        obtain ⟨D', hD', hR⟩ := ih ⟨nextCursor (r :: rs), s.json_list ++ [r :: rs]⟩ R h
        refine ⟨(r :: rs) :: D', by simp [mapPages, hresp, hD'], ?_⟩
        simp only [hR]
        simp

theorem run_ckpt_spec (api : Int → ApiResp) :
    ∀ (fuel : Nat) (s : Progress) (R : List (List RawRecord)) (cp : Progress),
      (download_map_info api fuel s).outcome = .finalWrite R →
      cp ∈ (download_map_info api fuel s).ckpts →
      ∃ (page : List RawRecord) (f : Nat) (D : List (List RawRecord)),
        api cp.since = .ok page ∧ page ≠ [] ∧
        (∃ pre, cp.json_list = pre ++ [page]) ∧
        mapPages api f (nextCursor page) = some D ∧
        R = cp.json_list ++ D := by
  intro fuel
  induction fuel with
  | zero => intro s R cp h hm; simp [download_map_info] at hm
  | succ fuel ih =>
    intro s R cp h hm
    cases hresp : api s.since with
    | err => simp [download_map_info, hresp] at h
    | ok recs =>
      cases recs with
      | nil => simp [download_map_info, hresp] at hm
      | cons r rs =>
        simp only [download_map_info, hresp, List.mem_cons] at hm h
        cases hm with
        | inl hcp =>
          subst hcp
          obtain ⟨D, hD, hR⟩ :=
            run_to_mapPages api fuel ⟨nextCursor (r :: rs), s.json_list ++ [r :: rs]⟩ R h
          exact ⟨r :: rs, fuel, D, hresp, by simp, ⟨s.json_list, rfl⟩, hD, hR⟩
        | inr hcp =>
          exact ih ⟨nextCursor (r :: rs), s.json_list ++ [r :: rs]⟩ R cp h hcp

/-- Claim C2: for every starting cursor and every page index, running the
pagination loop of `download_map_info` uninterrupted to exhaustion yields the
same set of records as stopping after the progress-file write that follows
that page, restarting from the persisted progress (its `since` cursor and its
`json_list`, lines 65–72), and continuing to exhaustion. -/
theorem download_map_info_resume_equivalence (api : Int → ApiResp) (fuel : Nat)
    (s : Progress) (R : List (List RawRecord)) (cp : Progress)
    (hdone : (download_map_info api fuel s).outcome = .finalWrite R)
    (hcp : cp ∈ (download_map_info api fuel s).ckpts) :
    ∃ (fuel2 : Nat) (R2 : List (List RawRecord)),
      (download_map_info api fuel2 ⟨cp.since, cp.json_list⟩).outcome = .finalWrite R2 ∧
      ∀ x, x ∈ R2.flatten ↔ x ∈ R.flatten := by
  obtain ⟨page, f, D, hapi, hne, ⟨pre, hjson⟩, hD, hR⟩ :=
    run_ckpt_spec api fuel s R cp hdone hcp
  cases page with
  | nil => exact absurd rfl hne
  | cons r rs =>
    refine ⟨f + 1, (cp.json_list ++ [r :: rs]) ++ D, ?_, ?_⟩
    · rw [download_map_info_succ_cons api f ⟨cp.since, cp.json_list⟩ r rs hapi]
      exact mapPages_to_run api f (nextCursor (r :: rs)) D (cp.json_list ++ [r :: rs]) hD
    · intro x
      subst hR
      rw [hjson]
      simp only [List.flatten_append, List.mem_append, List.flatten_cons, List.flatten_nil,
        List.append_nil]
      tauto

/-- Stub timeline service used by witnesses: one page at cursor 0, a second
page at cursor 3, exhaustion everywhere else. -/
def apiTwoPages : Int → ApiResp := fun c =>
  if c = 0 then .ok [⟨3, 1⟩] else if c = 3 then .ok [⟨7, 2⟩] else .ok []

/-- Stub timeline service: one page at cursor 0, an error payload elsewhere. -/
def apiOnePageErr : Int → ApiResp := fun c =>
  if c = 0 then .ok [⟨3, 1⟩] else .err

/-- Stub timeline service: one page at cursor 0, exhaustion elsewhere. -/
def apiOnePage : Int → ApiResp := fun c =>
  if c = 0 then .ok [⟨3, 1⟩] else .ok []

theorem download_map_info_resume_equivalence_witness :
    ((download_map_info apiTwoPages 3 ⟨0, []⟩).outcome = .finalWrite [[⟨3, 1⟩], [⟨7, 2⟩]] ∧
      (⟨0, [[⟨3, 1⟩]]⟩ : Progress) ∈ (download_map_info apiTwoPages 3 ⟨0, []⟩).ckpts) ∧
    ∃ (fuel2 : Nat) (R2 : List (List RawRecord)),
      (download_map_info apiTwoPages fuel2 ⟨0, [[⟨3, 1⟩]]⟩).outcome = .finalWrite R2 ∧
      ∀ x, x ∈ R2.flatten ↔ x ∈ ([[⟨3, 1⟩], [⟨7, 2⟩]] : List (List RawRecord)).flatten :=
  ⟨⟨by decide, by decide⟩,
   download_map_info_resume_equivalence apiTwoPages 3 ⟨0, []⟩ [[⟨3, 1⟩], [⟨7, 2⟩]]
     ⟨0, [[⟨3, 1⟩]]⟩ (by decide) (by decide)⟩

/-- Claim C4: for a non-empty page with last ordering key `T`
(`approved_date` of the last record), the next cursor is `T - 1` exactly when
the page has `API_MAX_RESULTS = 500` records, and `T` otherwise; the request
issued right after that page uses this cursor. -/
theorem download_map_info_next_cursor (api : Int → ApiResp) (fuel : Nat) (s : Progress)
    (page : List RawRecord) (h : page ≠ []) (hresp : api s.since = .ok page) :
    (page.length = API_MAX_RESULTS →
      nextCursor page = (page.getLast h).approved_date - 1) ∧
    (page.length ≠ API_MAX_RESULTS →
      nextCursor page = (page.getLast h).approved_date) ∧
    ∃ rest, (download_map_info api (fuel+2) s).reqs = s.since :: nextCursor page :: rest := by
  have hlast : page.getLastD default = page.getLast h := by
    rw [List.getLastD_eq_getLast?, List.getLast?_eq_getLast page h]
    rfl
  refine ⟨fun hlen => by simp only [nextCursor]; rw [hlast, if_pos hlen],
          fun hlen => by simp only [nextCursor]; rw [hlast, if_neg hlen], ?_⟩
  cases page with
  | nil => exact absurd rfl h
  | cons r rs =>
    rw [download_map_info_succ_cons api (fuel+1) s r rs hresp]
    have hh := download_map_info_reqs_head api fuel
      ⟨nextCursor (r :: rs), s.json_list ++ [r :: rs]⟩
    cases hl : (download_map_info api (fuel+1)
        ⟨nextCursor (r :: rs), s.json_list ++ [r :: rs]⟩).reqs with
    | nil => rw [hl] at hh; simp at hh
    | cons a tail =>
      rw [hl] at hh
      simp only [List.head?_cons, Option.some.injEq] at hh
      exact ⟨tail, by simp [hl, hh]⟩

/-- A short page of 3 records and a full page of 500 records. -/
def pageShort : List RawRecord := [⟨10, 0⟩, ⟨11, 0⟩, ⟨12, 0⟩]

def pageFull : List RawRecord := List.replicate 500 ⟨10, 0⟩

def apiShort : Int → ApiResp := fun _ => .ok pageShort

def apiFull : Int → ApiResp := fun _ => .ok pageFull

theorem download_map_info_next_cursor_witness :
    (pageFull ≠ [] ∧ pageFull.length = API_MAX_RESULTS ∧ nextCursor pageFull = 9) ∧
    (pageShort ≠ [] ∧ pageShort.length ≠ API_MAX_RESULTS ∧ nextCursor pageShort = 12) := by
  constructor
  · refine ⟨by decide, by decide, ?_⟩
    have := (download_map_info_next_cursor apiFull 0 ⟨0, []⟩ pageFull (by decide) rfl).1
      (by decide)
    rw [this]; decide
  · refine ⟨by decide, by decide, ?_⟩
    have := (download_map_info_next_cursor apiShort 0 ⟨0, []⟩ pageShort (by decide) rfl).2.1
      (by decide)
    rw [this]; decide

/-- Claim C5: if the service returns an error payload while page `k+1` is
being fetched (after `k` completed pages), the run aborts immediately with a
fatal outcome, that page is never appended, the progress-file writes are
exactly the ones made for the `k` completed pages, and a restart from the
last persisted progress re-issues a request with exactly the persisted
cursor. -/
theorem download_map_info_fatal_checkpoint_stable (api : Int → ApiResp)
    (k m : Nat) (s t : Progress) (cks : List Progress) (rqs : List Int)
    (hsteps : mapRunSteps api k s = some (t, cks, rqs))
    (herr : api t.since = .err) :
    download_map_info api (k + (m+1)) s = ⟨.fatal, cks, rqs ++ [t.since]⟩ ∧
    ∀ cp : Progress, cks.getLast? = some cp → ∀ fuel : Nat,
      (download_map_info api (fuel+1) ⟨cp.since, cp.json_list⟩).reqs.head? = some cp.since := by
  constructor
  · rw [mapRunSteps_run api m k s t cks rqs hsteps]
    simp [download_map_info, herr]
  · intro cp _ fuel
    exact download_map_info_reqs_head api fuel ⟨cp.since, cp.json_list⟩

theorem download_map_info_fatal_checkpoint_stable_witness :
    (mapRunSteps apiOnePageErr 1 ⟨0, []⟩
        = some (⟨3, [[⟨3, 1⟩]]⟩, [⟨0, [[⟨3, 1⟩]]⟩], [0]) ∧
      apiOnePageErr (3 : Int) = .err) ∧
    (download_map_info apiOnePageErr (1 + (0+1)) ⟨0, []⟩
        = ⟨.fatal, [⟨0, [[⟨3, 1⟩]]⟩], [0, 3]⟩ ∧
      ∀ cp : Progress, [(⟨0, [[⟨3, 1⟩]]⟩ : Progress)].getLast? = some cp → ∀ fuel : Nat,
        (download_map_info apiOnePageErr (fuel+1) ⟨cp.since, cp.json_list⟩).reqs.head?
          = some cp.since) :=
  ⟨⟨by decide, by decide⟩,
   download_map_info_fatal_checkpoint_stable apiOnePageErr 1 0 ⟨0, []⟩ ⟨3, [[⟨3, 1⟩]]⟩
     [⟨0, [[⟨3, 1⟩]]⟩] [0] (by decide) (by decide)⟩

/-- Claim C8: when the service returns an empty result set (after `k`
completed pages), the pagination loop of `download_map_info` ends normally:
the outcome is the final write of the accumulated pages, the empty-returning
request is the last request issued, and no further progress-file write
happens. -/
theorem download_map_info_exhaustion (api : Int → ApiResp)
    (k m : Nat) (s t : Progress) (cks : List Progress) (rqs : List Int)
    (hsteps : mapRunSteps api k s = some (t, cks, rqs))
    (hempty : api t.since = .ok []) :
    download_map_info api (k + (m+1)) s = ⟨.finalWrite t.json_list, cks, rqs ++ [t.since]⟩ := by
  rw [mapRunSteps_run api m k s t cks rqs hsteps]
  simp [download_map_info, hempty]

theorem download_map_info_exhaustion_witness :
    (mapRunSteps apiOnePage 1 ⟨0, []⟩
        = some (⟨3, [[⟨3, 1⟩]]⟩, [⟨0, [[⟨3, 1⟩]]⟩], [0]) ∧
      apiOnePage (3 : Int) = .ok []) ∧
    download_map_info apiOnePage (1 + (0+1)) ⟨0, []⟩
      = ⟨.finalWrite [[⟨3, 1⟩]], [⟨0, [[⟨3, 1⟩]]⟩], [0, 3]⟩ :=
  ⟨⟨by decide, by decide⟩,
   download_map_info_exhaustion apiOnePage 1 0 ⟨0, []⟩ ⟨3, [[⟨3, 1⟩]]⟩
     [⟨0, [[⟨3, 1⟩]]⟩] [0] (by decide) (by decide)⟩

/-! ## Batch fetcher: `download_rankings` (source lines 171–239) -/

/-- `RANKS_PER_PAGE = 50` (line 180). -/
def RANKS_PER_PAGE : Nat := 50

/-- `BATCH_REQUESTS = 100` (line 181): the chunk size. -/
def BATCH_REQUESTS : Nat := 100

/-- `BATCH_INTERVAL = 5` seconds (line 182). -/
def BATCH_INTERVAL : ℚ := 5

/-- `PROGRESS_FREQ = 10` (line 183): progress is saved every 10 chunks. -/
def PROGRESS_FREQ : Nat := 10

/-- The rankings progress dict: the scraped `user_ids` (line 200), the
`start_rank` chunk position (line 208) and the append-only `json_list` of
downloaded score records (lines 204, 221).  `α` is the type of one parsed
response body (`r.json()`). -/
structure RankProgress (α : Type) where
  user_ids : List Nat
  start_rank : Nat
  json_list : List α
  deriving DecidableEq, Repr

/-- Python `range(start, stop, step)` for positive `step`, as used at
line 207. -/
def pyRange (start stop step : Nat) : List Nat :=
  List.range' start ((stop - start + step - 1) / step) step

/-- The identifiers of the chunk starting at `i`:
`user_ids[i:i+BATCH_REQUESTS]` (line 210). -/
def chunkIds (user_ids : List Nat) (i : Nat) : List Nat :=
  (user_ids.drop i).take BATCH_REQUESTS

/-- The parsed responses collected for one chunk, in identifier order.
Modelled from the spec: the source collects the chunk through
`grequests.map(rs, exception_handler=exception_handler)` (line 220), an
external library call not part of this repository; per the spec a
per-identifier transport or decode failure (`fetch uid = none`) is passed to
the logging handler and that identifier's result slot is dropped with no
retry and no placeholder, while successful responses are kept in request
order. -/
def chunkResults {α : Type} (fetch : Nat → Option α) (user_ids : List Nat) (i : Nat) :
    List α :=
  (chunkIds user_ids i).filterMap fetch

/-- The identifiers of one chunk whose fetch failed; these are what
`exception_handler` (lines 167–168) logs. -/
def chunkFailures {α : Type} (fetch : Nat → Option α) (user_ids : List Nat) (i : Nat) :
    List Nat :=
  (chunkIds user_ids i).filter (fun u => (fetch u).isNone)

/-- The throttle of line 233:
`time.sleep(max(0, start_time + BATCH_INTERVAL - time.process_time()))`. -/
def pace (start_time now : ℚ) : ℚ :=
  max 0 (start_time + BATCH_INTERVAL - now)

/-- Observable trace of one `download_rankings` chunk loop: the progress
dict at loop exit (whose `json_list` is written to the output file,
lines 236–239), the progress-file writes (lines 223–227) paired with the
`progress_counter` value at which each happened, the identifiers whose
fetch failed and was logged, and the slept durations (line 233). -/
structure RankTrace (α : Type) where
  finalState : RankProgress α
  ckpts : List (Nat × RankProgress α)
  failLog : List Nat
  sleeps : List ℚ
  deriving DecidableEq, Repr

/-- The `for i in range(start_rank, end_rank, BATCH_REQUESTS)` loop of
`download_rankings` (lines 206–233).  Per chunk: `start_rank` is set to `i`
(line 208), the chunk's successful results are appended (lines 219–221),
then the progress file is written when `progress_counter > 0` and
`progress_counter % PROGRESS_FREQ == 0` (lines 223–227), the counter is
incremented (line 229) and the throttle sleeps (line 233).  `times c` is the
pair of clock readings (`start_time`, `time.process_time()` at the sleep)
measured for chunk number `c`. -/
def download_rankings_loop {α : Type} (fetch : Nat → Option α) (times : Nat → ℚ × ℚ) :
    List Nat → Nat → RankProgress α → RankTrace α
  | [], _, p => ⟨p, [], [], []⟩
  | i :: rest, c, p =>
    let p' : RankProgress α := ⟨p.user_ids, i, p.json_list ++ chunkResults fetch p.user_ids i⟩
    let t := download_rankings_loop fetch times rest (c+1) p'
    ⟨t.finalState,
     (if 0 < c ∧ c % PROGRESS_FREQ = 0 then [(c, p')] else []) ++ t.ckpts,
     chunkFailures fetch p.user_ids i ++ t.failLog,
     pace (times c).1 (times c).2 :: t.sleeps⟩

/-- A fresh (no progress file) run of `download_rankings`, lines 195–233:
the assertion `0 <= start_rank < end_rank <= 10000` (line 197) is the
caller's obligation; `max_page = ceil(end_rank / RANKS_PER_PAGE)`
(line 199); `user_ids` comes from the identifier enumeration
(`scrape_rankings`, abstracted as `enumerate`), `json_list` starts empty,
and the chunk loop starts with `progress_counter = 0`. -/
def download_rankings_run {α : Type} (enumerate : Nat → List Nat) (fetch : Nat → Option α)
    (times : Nat → ℚ × ℚ) (start_rank end_rank : Nat) : RankTrace α :=
  download_rankings_loop fetch times (pyRange start_rank end_rank BATCH_REQUESTS) 0
    ⟨enumerate ((end_rank + RANKS_PER_PAGE - 1) / RANKS_PER_PAGE), start_rank, []⟩

/-- `download_rankings` with the line-197 assertion made explicit: `none`
models the `AssertionError`. -/
def download_rankings {α : Type} (enumerate : Nat → List Nat) (fetch : Nat → Option α)
    (times : Nat → ℚ × ℚ) (start_rank end_rank : Nat) : Option (RankTrace α) :=
  if start_rank < end_rank ∧ end_rank ≤ 10000 then
    some (download_rankings_run enumerate fetch times start_rank end_rank)
  else none

/-- Resuming `download_rankings` from a loaded progress file (lines 186–192):
`start_rank` is taken from the file, the loop starts again with
`progress_counter = 0`. -/
def download_rankings_resume {α : Type} (fetch : Nat → Option α) (times : Nat → ℚ × ℚ)
    (p : RankProgress α) (end_rank : Nat) : RankTrace α :=
  download_rankings_loop fetch times (pyRange p.start_rank end_rank BATCH_REQUESTS) 0 p

theorem download_rankings_loop_final {α : Type} (fetch : Nat → Option α)
    (times : Nat → ℚ × ℚ) :
    ∀ (idxs : List Nat) (c : Nat) (p : RankProgress α),
      (download_rankings_loop fetch times idxs c p).finalState.user_ids = p.user_ids ∧
      (download_rankings_loop fetch times idxs c p).finalState.json_list
        = p.json_list ++ idxs.flatMap (fun i => chunkResults fetch p.user_ids i) ∧
      (download_rankings_loop fetch times idxs c p).failLog
        = idxs.flatMap (fun i => chunkFailures fetch p.user_ids i) := by
  intro idxs
  induction idxs with
  | nil => intro c p; simp [download_rankings_loop]
  | cons i rest ih =>
    intro c p
    obtain ⟨h1, h2, h3⟩ :=
      ih (c+1) ⟨p.user_ids, i, p.json_list ++ chunkResults fetch p.user_ids i⟩
    refine ⟨?_, ?_, ?_⟩
    · simpa [download_rankings_loop] using h1
    · simp only [download_rankings_loop]
      rw [h2]
      simp [List.flatMap_cons, List.append_assoc]
    · simp only [download_rankings_loop]
      rw [h3]
      simp [List.flatMap_cons]

theorem download_rankings_loop_ckpts {α : Type} (fetch : Nat → Option α)
    (times : Nat → ℚ × ℚ) :
    ∀ (idxs : List Nat) (c : Nat) (p : RankProgress α),
      ∀ w ∈ (download_rankings_loop fetch times idxs c p).ckpts,
        w.2.user_ids = p.user_ids ∧ w.2.start_rank ∈ idxs ∧
        (∃ L, w.2.json_list = L ++ chunkResults fetch p.user_ids w.2.start_rank) ∧
        0 < w.1 ∧ w.1 % PROGRESS_FREQ = 0 ∧ c ≤ w.1 ∧ w.1 < c + idxs.length := by
  intro idxs
  induction idxs with
  | nil => intro c p w hw; simp [download_rankings_loop] at hw
  | cons i rest ih =>
    intro c p w hw
    simp only [download_rankings_loop, List.mem_append] at hw
    cases hw with
    | inl hw =>
      by_cases hc : 0 < c ∧ c % PROGRESS_FREQ = 0
      · rw [if_pos hc] at hw
        simp only [List.mem_singleton] at hw
        subst hw
        exact ⟨rfl, by simp, ⟨p.json_list, rfl⟩, hc.1, hc.2, le_refl c, by simp⟩
      · rw [if_neg hc] at hw
        simp at hw
    | inr hw =>
      obtain ⟨h1, h2, h3, h4, h5, h6, h7⟩ :=
        ih (c+1) ⟨p.user_ids, i, p.json_list ++ chunkResults fetch p.user_ids i⟩ w hw
      exact ⟨h1, List.mem_cons_of_mem i h2, h3, h4, h5, by omega,
        by simp only [List.length_cons]; omega⟩

theorem pyRange_mem_lt {i s e : Nat} (h : i ∈ pyRange s e BATCH_REQUESTS) : i < e := by
  simp only [pyRange, BATCH_REQUESTS, List.mem_range'] at h
  obtain ⟨j, hj, rfl⟩ := h
  omega

theorem pyRange_head {s e : Nat} (h : s < e) :
    pyRange s e BATCH_REQUESTS = s :: pyRange (s + BATCH_REQUESTS) e BATCH_REQUESTS := by
  simp only [pyRange, BATCH_REQUESTS]
  have hlen : (e - s + 100 - 1) / 100 = (e - (s + 100) + 100 - 1) / 100 + 1 := by omega
  rw [hlen, List.range'_succ]

theorem download_rankings_loop_sleeps {α : Type} (fetch : Nat → Option α)
    (times : Nat → ℚ × ℚ) :
    ∀ (idxs : List Nat) (c : Nat) (p : RankProgress α),
      (∀ x ∈ (download_rankings_loop fetch times idxs c p).sleeps, 0 ≤ x) ∧
      (download_rankings_loop fetch times idxs c p).sleeps.length = idxs.length := by
  intro idxs
  induction idxs with
  | nil => intro c p; simp [download_rankings_loop]
  | cons i rest ih =>
    intro c p
    obtain ⟨h1, h2⟩ :=
      ih (c+1) ⟨p.user_ids, i, p.json_list ++ chunkResults fetch p.user_ids i⟩
    constructor
    · intro x hx
      simp only [download_rankings_loop, List.mem_cons] at hx
      cases hx with
      | inl hx => rw [hx]; exact le_max_left 0 _
      | inr hx => exact h1 x hx
    · simp only [download_rankings_loop, List.length_cons]
      rw [h2]

/-- Stub collaborators used by witnesses and counterexamples. -/
def enum250 : Nat → List Nat := fun _ => List.range 250

def enum1100 : Nat → List Nat := fun _ => List.range 1100

def enumEmpty : Nat → List Nat := fun _ => []

def fetchOk : Nat → Option Nat := fun u => some u

def fetchNone : Nat → Option Nat := fun _ => none

def fetchDrop5 : Nat → Option Nat := fun u => if u = 5 then none else some u

def clock0 : Nat → ℚ × ℚ := fun _ => (0, 0)

/-- Claim C1: in `download_rankings`, when the detail fetch of one
identifier in some chunk fails (`fetch uid = none`), the identifier is
logged in the failure log, its result slot is dropped (the final `json_list`
is exactly the in-order concatenation of the successful results of every
chunk, with no placeholder: every stored record comes from a successful
fetch), and the run still processes every chunk to completion. -/
theorem download_rankings_transient_failure_dropped {α : Type}
    (enumerate : Nat → List Nat) (fetch : Nat → Option α) (times : Nat → ℚ × ℚ)
    (s e i uid : Nat)
    (hi : i ∈ pyRange s e BATCH_REQUESTS)
    (hu : uid ∈ chunkIds (enumerate ((e + RANKS_PER_PAGE - 1) / RANKS_PER_PAGE)) i)
    (hf : fetch uid = none) :
    uid ∈ (download_rankings_run enumerate fetch times s e).failLog ∧
    (download_rankings_run enumerate fetch times s e).finalState.json_list
      = (pyRange s e BATCH_REQUESTS).flatMap
          (fun j => chunkResults fetch (enumerate ((e + RANKS_PER_PAGE - 1) / RANKS_PER_PAGE)) j) ∧
    ∀ x ∈ (download_rankings_run enumerate fetch times s e).finalState.json_list,
      ∃ u, fetch u = some x := by
  obtain ⟨h1, h2, h3⟩ := download_rankings_loop_final fetch times
    (pyRange s e BATCH_REQUESTS) 0
    ⟨enumerate ((e + RANKS_PER_PAGE - 1) / RANKS_PER_PAGE), s, []⟩
  refine ⟨?_, ?_, ?_⟩
  · show uid ∈ (download_rankings_loop fetch times (pyRange s e BATCH_REQUESTS) 0
      ⟨enumerate ((e + RANKS_PER_PAGE - 1) / RANKS_PER_PAGE), s, []⟩).failLog
    rw [h3]
    rw [List.mem_flatMap]
    refine ⟨i, hi, ?_⟩
    simp only [chunkFailures, List.mem_filter]
    exact ⟨hu, by simp [hf]⟩
  · show (download_rankings_loop fetch times (pyRange s e BATCH_REQUESTS) 0
      ⟨enumerate ((e + RANKS_PER_PAGE - 1) / RANKS_PER_PAGE), s, []⟩).finalState.json_list = _
    rw [h2]
    simp
  · intro x hx
    rw [show (download_rankings_run enumerate fetch times s e).finalState.json_list
         = _ from h2] at hx
    simp only [List.nil_append, List.mem_flatMap, chunkResults, List.mem_filterMap] at hx
    obtain ⟨j, _, u, _, hux⟩ := hx
    exact ⟨u, hux⟩

theorem download_rankings_transient_failure_dropped_witness :
    (0 ∈ pyRange 0 250 BATCH_REQUESTS ∧
      5 ∈ chunkIds (enum250 ((250 + RANKS_PER_PAGE - 1) / RANKS_PER_PAGE)) 0 ∧
      fetchDrop5 5 = none) ∧
    (5 ∈ (download_rankings_run enum250 fetchDrop5 clock0 0 250).failLog ∧
      (download_rankings_run enum250 fetchDrop5 clock0 0 250).finalState.json_list
        = (pyRange 0 250 BATCH_REQUESTS).flatMap
            (fun j => chunkResults fetchDrop5
              (enum250 ((250 + RANKS_PER_PAGE - 1) / RANKS_PER_PAGE)) j) ∧
      ∀ x ∈ (download_rankings_run enum250 fetchDrop5 clock0 0 250).finalState.json_list,
        ∃ u, fetchDrop5 u = some x) :=
  ⟨⟨by decide, by decide, by decide⟩,
   download_rankings_transient_failure_dropped enum250 fetchDrop5 clock0 0 250 0 5
     (by decide) (by decide) (by decide)⟩

/-- Claim C3 counterexample: identifier list of length 250, chunk size 100,
ranks 0 to 250.  Only three chunks run — fewer than `PROGRESS_FREQ` — so the
progress file is never written inside the chunk loop, and the position
sequence observed in checkpoint writes is empty, not 0 → 100 → 200 → 250. -/
theorem download_rankings_chunk_positions_counterexample :
    (download_rankings_run enum250 fetchOk clock0 0 250).ckpts.map
        (fun w => w.2.start_rank) ≠ [0, 100, 200, 250] := by
  decide

/-- Claim C3 (amended): for an identifier list of length 250 and chunk size
100, `download_rankings` consumes chunks of sizes 100, 100, 50, assigning
positions 0, 100, 200; but no progress-file write happens inside the loop
(3 chunks < `PROGRESS_FREQ` = 10), so no position sequence is observed in
checkpoint writes, and the position held at loop exit is 200, not 250. -/
theorem download_rankings_chunking_amended :
    pyRange 0 250 BATCH_REQUESTS = [0, 100, 200] ∧
    (pyRange 0 250 BATCH_REQUESTS).map (fun i => (chunkIds (List.range 250) i).length)
      = [100, 100, 50] ∧
    (download_rankings_run enum250 fetchOk clock0 0 250).ckpts = [] ∧
    (download_rankings_run enum250 fetchOk clock0 0 250).finalState.start_rank = 200 ∧
    (download_rankings_run enum250 fetchOk clock0 0 250).finalState.json_list
      = List.range 250 := by
  refine ⟨by decide, by decide, by decide, by decide, by decide⟩

/-- Claim C6: the sleep between chunks is
`max(0, BATCH_INTERVAL - (chunkEndTime - chunkStartTime))`: zero when the
measured duration exceeds the 5-second floor, exactly `floor - duration` for
a shorter chunk, and never negative; every sleep recorded by the chunk loop
is non-negative, one per chunk. -/
theorem download_rankings_pace_spec {α : Type} (fetch : Nat → Option α)
    (times : Nat → ℚ × ℚ) (idxs : List Nat) (c : Nat) (p : RankProgress α)
    (startT endT : ℚ) :
    pace startT endT = max 0 (BATCH_INTERVAL - (endT - startT)) ∧
    (BATCH_INTERVAL < endT - startT → pace startT endT = 0) ∧
    (endT - startT < BATCH_INTERVAL → pace startT endT = BATCH_INTERVAL - (endT - startT)) ∧
    0 ≤ pace startT endT ∧
    (∀ x ∈ (download_rankings_loop fetch times idxs c p).sleeps, 0 ≤ x) ∧
    (download_rankings_loop fetch times idxs c p).sleeps.length = idxs.length := by
  obtain ⟨hs1, hs2⟩ := download_rankings_loop_sleeps fetch times idxs c p
  refine ⟨?_, ?_, ?_, le_max_left 0 _, hs1, hs2⟩
  · unfold pace
    congr 1
    ring
  · intro hgt
    unfold pace
    apply max_eq_left
    linarith
  · intro hlt
    unfold pace
    rw [max_eq_right (by linarith)]
    ring

theorem download_rankings_pace_witness :
    (BATCH_INTERVAL < (7 : ℚ) - 0 ∧ pace 0 7 = 0) ∧
    ((2 : ℚ) - 0 < BATCH_INTERVAL ∧ pace 0 2 = BATCH_INTERVAL - ((2 : ℚ) - 0)) :=
  ⟨⟨by norm_num [BATCH_INTERVAL],
    (download_rankings_pace_spec fetchNone clock0 [] 0 ⟨[], 0, []⟩ 0 7).2.1
      (by norm_num [BATCH_INTERVAL])⟩,
   ⟨by norm_num [BATCH_INTERVAL],
    (download_rankings_pace_spec fetchNone clock0 [] 0 ⟨[], 0, []⟩ 0 2).2.2.1
      (by norm_num [BATCH_INTERVAL])⟩⟩

/-- Claim C7 counterexample: when the identifier enumeration returns an
empty list (possible, since `scrape_rankings` just collects whatever links
the pages contain) and the default ranks 0..10000 are used, the very first
progress-file write stores `start_rank = 1000` while `user_ids` has length
0 — the stored position exceeds the identifier-list length. -/
theorem download_rankings_position_bound_counterexample :
    ¬ ∀ w ∈ (download_rankings_run enumEmpty fetchNone clock0 0 10000).ckpts,
        w.2.start_rank ≤ w.2.user_ids.length := by
  decide

/-- Claim C7 (amended): `user_ids` is fixed once written (the loop never
modifies it), and every position stored in a progress-file write is strictly
below `end_rank`; hence the stored position never exceeds
`len(user_ids)` PROVIDED the enumeration returned at least `end_rank`
identifiers.  (Without that proviso the bound fails — see the
counterexample.) -/
theorem download_rankings_position_invariant_amended {α : Type}
    (enumerate : Nat → List Nat) (fetch : Nat → Option α) (times : Nat → ℚ × ℚ)
    (s e : Nat) :
    (download_rankings_run enumerate fetch times s e).finalState.user_ids
      = enumerate ((e + RANKS_PER_PAGE - 1) / RANKS_PER_PAGE) ∧
    ∀ w ∈ (download_rankings_run enumerate fetch times s e).ckpts,
      w.2.user_ids = enumerate ((e + RANKS_PER_PAGE - 1) / RANKS_PER_PAGE) ∧
      w.2.start_rank < e ∧
      (e ≤ (enumerate ((e + RANKS_PER_PAGE - 1) / RANKS_PER_PAGE)).length →
        w.2.start_rank ≤ w.2.user_ids.length) := by
  constructor
  · exact (download_rankings_loop_final fetch times _ 0 _).1
  · intro w hw
    obtain ⟨h1, h2, _, _, _, _, _⟩ := download_rankings_loop_ckpts fetch times _ 0 _ w hw
    have hlt : w.2.start_rank < e := pyRange_mem_lt h2
    refine ⟨h1, hlt, fun hlen => ?_⟩
    rw [h1]
    exact Nat.le_trans (Nat.le_of_lt hlt) hlen

theorem download_rankings_position_invariant_witness :
    (1100 ≤ (enum1100 ((1100 + RANKS_PER_PAGE - 1) / RANKS_PER_PAGE)).length) ∧
    ((10, (⟨List.range 1100, 1000, []⟩ : RankProgress Nat)) ∈
      (download_rankings_run enum1100 fetchNone clock0 0 1100).ckpts) ∧
    ∀ w ∈ (download_rankings_run enum1100 fetchNone clock0 0 1100).ckpts,
      w.2.start_rank ≤ w.2.user_ids.length :=
  ⟨by decide, by decide, fun w hw =>
    ((download_rankings_position_invariant_amended enum1100 fetchNone clock0 0 1100).2
      w hw).2.2 (by decide)⟩

/-- Claim C9: every progress file written inside the chunk loop stores
`start_rank` equal to the start index of the chunk whose results were
already appended to the stored `json_list` (the write happens after the
append, with `start_rank` still pointing at that chunk); consequently a
resume from such a file re-fetches exactly that chunk first and appends its
results a second time. -/
theorem download_rankings_checkpoint_refetch {α : Type}
    (fetch : Nat → Option α) (times times2 : Nat → ℚ × ℚ)
    (idxs : List Nat) (c0 : Nat) (p : RankProgress α) (e : Nat)
    (w : Nat × RankProgress α)
    (hw : w ∈ (download_rankings_loop fetch times idxs c0 p).ckpts)
    (hlt : w.2.start_rank < e) :
    (∃ L, w.2.json_list = L ++ chunkResults fetch w.2.user_ids w.2.start_rank) ∧
    (∃ rest, (download_rankings_resume fetch times2 w.2 e).finalState.json_list
        = w.2.json_list ++ chunkResults fetch w.2.user_ids w.2.start_rank ++ rest) := by
  obtain ⟨h1, _, ⟨L, hL⟩, _, _, _, _⟩ :=
    download_rankings_loop_ckpts fetch times _ c0 _ w hw
  constructor
  · exact ⟨L, by rw [hL, h1]⟩
  · obtain ⟨_, h2, _⟩ := download_rankings_loop_final fetch times2
      (pyRange w.2.start_rank e BATCH_REQUESTS) 0 w.2
    refine ⟨(pyRange (w.2.start_rank + BATCH_REQUESTS) e BATCH_REQUESTS).flatMap
      (fun j => chunkResults fetch w.2.user_ids j), ?_⟩
    show (download_rankings_loop fetch times2
      (pyRange w.2.start_rank e BATCH_REQUESTS) 0 w.2).finalState.json_list = _
    rw [h2, pyRange_head hlt]
    simp [List.flatMap_cons, List.append_assoc]

theorem download_rankings_checkpoint_refetch_witness :
    ((10, (⟨List.range 5, 0, [99, 0, 1, 2, 3, 4]⟩ : RankProgress Nat)) ∈
        (download_rankings_loop fetchOk clock0 [0] 10 ⟨List.range 5, 7, [99]⟩).ckpts ∧
      (0 : Nat) < 1) ∧
    ((∃ L, ([99, 0, 1, 2, 3, 4] : List Nat)
        = L ++ chunkResults fetchOk (List.range 5) 0) ∧
      (∃ rest, (download_rankings_resume fetchOk clock0
          ⟨List.range 5, 0, [99, 0, 1, 2, 3, 4]⟩ 1).finalState.json_list
        = [99, 0, 1, 2, 3, 4] ++ chunkResults fetchOk (List.range 5) 0 ++ rest)) :=
  ⟨⟨by decide, by decide⟩,
   download_rankings_checkpoint_refetch fetchOk clock0 clock0 [0] 10 ⟨List.range 5, 7, [99]⟩
     1 (10, ⟨List.range 5, 0, [99, 0, 1, 2, 3, 4]⟩) (by decide) (by decide)⟩

/-- Claim C10: the progress file is written inside the chunk loop only at
chunk indices that are positive multiples of `PROGRESS_FREQ` = 10, and a run
of at most 10 chunks therefore writes no progress file at all before the
final output (a crash in such a run loses every fetched result and the
enumerated identifier list). -/
theorem download_rankings_checkpoint_frequency {α : Type}
    (enumerate : Nat → List Nat) (fetch : Nat → Option α) (times : Nat → ℚ × ℚ)
    (s e : Nat) :
    (∀ w ∈ (download_rankings_run enumerate fetch times s e).ckpts,
        0 < w.1 ∧ w.1 % PROGRESS_FREQ = 0) ∧
    ((pyRange s e BATCH_REQUESTS).length ≤ PROGRESS_FREQ →
        (download_rankings_run enumerate fetch times s e).ckpts = []) := by
  constructor
  · intro w hw
    obtain ⟨_, _, _, h4, h5, _, _⟩ :=
      download_rankings_loop_ckpts fetch times _ 0 _ w hw
    exact ⟨h4, h5⟩
  · intro hlen
    rw [List.eq_nil_iff_forall_not_mem]
    intro w hw
    obtain ⟨_, _, _, h4, h5, h6, h7⟩ :=
      download_rankings_loop_ckpts fetch times _ 0 _ w hw
    simp only [PROGRESS_FREQ] at h5
    simp only [PROGRESS_FREQ] at hlen
    omega

theorem download_rankings_checkpoint_frequency_witness :
    (pyRange 0 250 BATCH_REQUESTS).length ≤ PROGRESS_FREQ ∧
    (download_rankings_run enum250 fetchOk clock0 0 250).ckpts = [] :=
  ⟨by decide,
   (download_rankings_checkpoint_frequency enum250 fetchOk clock0 0 250).2 (by decide)⟩

end Osu
